import Mathlib

/-!
Verification development for the x402 multi-facilitator merchant gateway.

The repository configures four facilitator-bound route tables (PayAI, Dexter,
Heurist, Daydreams) over an x402 payment-gating engine, validates its payee
addresses at startup, exposes a client-side receipt decoder, and a 500 error
handler.  Definitions below are shallow embeddings of `src/index.ts` and
`src/client.ts`; components of the payment engine itself (RouteRegistry,
NonceStore, PaymentGate, ChallengeBuilder, ReceiptEncoder, FacilitatorClient)
live in the external x402 library and are modelled from the specification,
each marked `Modelled from the spec:` in its doc comment.

Strings that travel over the wire (headers, JSON) are modelled as lists of
byte values (`List Nat`, each < 256).
-/

namespace X402

/-! ## Base64 over byte lists

Models the base64 codec used for the `X-PAYMENT` and `X-PAYMENT-RESPONSE`
headers (`Buffer.from(header, "base64")` on the client side, RFC 4648 with
padding on the encoding side). -/

/-- The RFC 4648 base64 alphabet: maps a sextet value (< 64) to its ASCII code. -/
def b64Char (n : Nat) : Nat :=
  if n < 26 then 65 + n
  else if n < 52 then 97 + (n - 26)
  else if n < 62 then 48 + (n - 52)
  else if n = 62 then 43
  else 47

/-- Inverse alphabet lookup: ASCII code back to sextet value, `none` off-alphabet. -/
def b64Val (c : Nat) : Option Nat :=
  if 65 ≤ c ∧ c ≤ 90 then some (c - 65)
  else if 97 ≤ c ∧ c ≤ 122 then some (26 + (c - 97))
  else if 48 ≤ c ∧ c ≤ 57 then some (52 + (c - 48))
  else if c = 43 then some 62
  else if c = 47 then some 63
  else none

/-- Base64-encode a byte list, emitting `=` (ASCII 61) padding. -/
def b64Encode : List Nat → List Nat
  | [] => []
  | [a] => [b64Char (a / 4), b64Char (a % 4 * 16), 61, 61]
  | [a, b] => [b64Char (a / 4), b64Char (a % 4 * 16 + b / 16), b64Char (b % 16 * 4), 61]
  | a :: b :: c :: rest =>
      b64Char (a / 4) :: b64Char (a % 4 * 16 + b / 16) ::
        b64Char (b % 16 * 4 + c / 64) :: b64Char (c % 64) :: b64Encode rest

/-- Base64-decode a character list back to bytes; `none` on malformed input. -/
def b64Decode : List Nat → Option (List Nat)
  | [] => some []
  | w :: x :: y :: z :: rest =>
      match b64Val w, b64Val x with
      | some a, some b =>
        if y = 61 then
          if z = 61 ∧ rest = [] ∧ b % 16 = 0 then some [a * 4 + b / 16] else none
        else
          match b64Val y with
          | some c =>
            if z = 61 then
              if rest = [] ∧ c % 4 = 0 then some [a * 4 + b / 16, b % 16 * 16 + c / 4]
              else none
            else
              match b64Val z with
              | some d =>
                (b64Decode rest).map
                  (fun l => (a * 4 + b / 16) :: (b % 16 * 16 + c / 4) :: (c % 4 * 64 + d) :: l)
              | none => none
          | none => none
      | _, _ => none
  | _ => none

/-! ## Wire-format helpers -/

/-- Byte values of a Lean string literal (ASCII code points of its characters). -/
def strBytes (s : String) : List Nat := s.data.map Char.toNat

/-- Consume an expected literal prefix, returning the remainder, `none` on mismatch. -/
def expectLit : List Nat → List Nat → Option (List Nat)
  | [], r => some r
  | _ :: _, [] => none
  | p :: ps, c :: cs => if c = p then expectLit ps cs else none

/-- Parse a JSON string body up to (and consuming) the closing quote (byte 34). -/
def parseStr : List Nat → Option (List Nat × List Nat)
  | [] => none
  | c :: rest =>
      if c = 34 then some ([], rest)
      else (parseStr rest).map (fun p => (c :: p.1, p.2))

/-- Parse a JSON boolean literal. -/
def parseBoolLit : List Nat → Option (Bool × List Nat)
  | 116 :: 114 :: 117 :: 101 :: rest => some (true, rest)
  | 102 :: 97 :: 108 :: 115 :: 101 :: rest => some (false, rest)
  | _ => none

/-- Parse a run of decimal digit bytes into a `Nat`; needs at least one digit. -/
def parseNatBytes (l : List Nat) : Option (Nat × List Nat) :=
  let ds := l.takeWhile (fun c => decide (48 ≤ c) && decide (c ≤ 57))
  if ds = [] then none
  else some (ds.foldl (fun a c => a * 10 + (c - 48)) 0,
    l.dropWhile (fun c => decide (48 ≤ c) && decide (c ≤ 57)))

/-! ## SettlementReceipt and the ReceiptEncoder -/

/-- The settlement receipt attached on success (spec §3: success flag, network,
    payer, facilitator-defined transaction reference, settlement time). -/
structure SettlementReceipt where
  success : Bool
  network : List Nat
  payer : List Nat
  transactionReference : List Nat
  settledAt : List Nat
deriving DecidableEq, Repr

/-- JSON segment constants of the receipt wire format. -/
def segOpen : List Nat := strBytes "\x7b\"success\":"

def segNetwork : List Nat := strBytes ",\"network\":\""

def segPayer : List Nat := strBytes ",\"payer\":\""

def segTx : List Nat := strBytes ",\"transactionReference\":\""

def segSettled : List Nat := strBytes ",\"settledAt\":\""

def segClose : List Nat := strBytes "\x7d"

def boolBytes : Bool → List Nat
  | true => strBytes "true"
  | false => strBytes "false"

/-- Modelled from the spec: the ReceiptEncoder's `json(SettlementReceipt)`
    serialization (the encoder lives in the x402 library, not under src/). -/
def jsonOfReceipt (r : SettlementReceipt) : List Nat :=
  segOpen ++ boolBytes r.success ++ segNetwork ++ r.network ++
    34 :: (segPayer ++ r.payer ++
      34 :: (segTx ++ r.transactionReference ++
        34 :: (segSettled ++ r.settledAt ++ 34 :: segClose)))

/-- Modelled from the spec: the ReceiptEncoder's header encoding
    `base64(json(SettlementReceipt))` attached as `X-PAYMENT-RESPONSE`. -/
def encodeReceiptHeader (r : SettlementReceipt) : List Nat :=
  b64Encode (jsonOfReceipt r)

/-- Client-side JSON parse of a receipt object (the `JSON.parse` step of
    `decodePaymentResponse` in `src/client.ts`, read at the receipt's shape). -/
def parseReceipt (l : List Nat) : Option SettlementReceipt := do
  let l1 ← expectLit segOpen l
  let (b, l2) ← parseBoolLit l1
  let l3 ← expectLit segNetwork l2
  let (n, l4) ← parseStr l3
  let l5 ← expectLit segPayer l4
  let (p, l6) ← parseStr l5
  let l7 ← expectLit segTx l6
  let (t, l8) ← parseStr l7
  let l9 ← expectLit segSettled l8
  let (s, l10) ← parseStr l9
  let l11 ← expectLit segClose l10
  if l11 = [] then some ⟨b, n, p, t, s⟩ else none

/-- Shallow embedding of `decodePaymentResponse` from `src/client.ts` lines
    17–25 (identical in `src/unnamed/part_000` lines 21–29): `none` for a
    missing header, `none` when base64-decoding then JSON-parsing fails,
    and the parsed receipt object otherwise. -/
def decodePaymentResponse (header : Option (List Nat)) : Option SettlementReceipt :=
  match header with
  | none => none
  | some h =>
    match b64Decode h with
    | none => none
    | some bytes => parseReceipt bytes

/-- A receipt is wire-safe when its string fields are quote-free bytes. -/
def WireSafe (r : SettlementReceipt) : Prop :=
  (∀ b ∈ r.network, b < 256) ∧ (∀ b ∈ r.payer, b < 256) ∧
  (∀ b ∈ r.transactionReference, b < 256) ∧ (∀ b ∈ r.settledAt, b < 256) ∧
  34 ∉ r.network ∧ 34 ∉ r.payer ∧ 34 ∉ r.transactionReference ∧ 34 ∉ r.settledAt

instance (r : SettlementReceipt) : Decidable (WireSafe r) := by
  unfold WireSafe; infer_instance

/-! ## PaymentPayload and the X-PAYMENT header -/

/-- The client-submitted payment authorization (spec §3): structural fields the
    gate itself inspects plus the facilitator-interpretable signed blob. -/
structure PaymentPayload where
  network : List Nat
  payer : List Nat
  nonce : List Nat
  validAfter : Nat
  validBefore : Nat
  signedBlob : List Nat
deriving DecidableEq, Repr

/-- JSON segment constants of the payload wire format. -/
def psOpen : List Nat := strBytes "\x7b\"network\":\""

def psPayer : List Nat := strBytes ",\"payer\":\""

def psNonce : List Nat := strBytes ",\"nonce\":\""

def psValidAfter : List Nat := strBytes ",\"validAfter\":"

def psValidBefore : List Nat := strBytes ",\"validBefore\":"

def psBlob : List Nat := strBytes ",\"signedBlob\":\""

/-- Modelled from the spec: deserialization of the `X-PAYMENT` header body into
    a PaymentPayload (§4.3 "parse header: base64-decode, deserialize");
    `none` models any structural decode failure. -/
def parsePayload (l : List Nat) : Option PaymentPayload := do
  let l1 ← expectLit psOpen l
  let (nw, l2) ← parseStr l1
  let l3 ← expectLit psPayer l2
  let (py, l4) ← parseStr l3
  let l5 ← expectLit psNonce l4
  let (nc, l6) ← parseStr l5
  let l7 ← expectLit psValidAfter l6
  let (va, l8) ← parseNatBytes l7
  let l9 ← expectLit psValidBefore l8
  let (vb, l10) ← parseNatBytes l9
  let l11 ← expectLit psBlob l10
  let (sb, l12) ← parseStr l11
  let l13 ← expectLit segClose l12
  if l13 = [] then some ⟨nw, py, nc, va, vb, sb⟩ else none

/-- Modelled from the spec: the client-side `json(PaymentPayload)` serialization
    (used to build concrete X-PAYMENT headers). -/
def jsonOfPayload (p : PaymentPayload) : List Nat :=
  psOpen ++ p.network ++
    34 :: (psPayer ++ p.payer ++
      34 :: (psNonce ++ p.nonce ++
        34 :: (psValidAfter ++ strBytes (Nat.repr p.validAfter) ++
          psValidBefore ++ strBytes (Nat.repr p.validBefore) ++
          psBlob ++ p.signedBlob ++ 34 :: segClose)))

/-- Base64-decode then deserialize the X-PAYMENT header. -/
def decodeXPayment (h : List Nat) : Option PaymentPayload :=
  (b64Decode h).bind parsePayload

/-- The structural timestamp check of §4.3: `validAfter ≤ validBefore` and the
    current time inside `[validAfter, validBefore]`. -/
def structOk (p : PaymentPayload) (now : Nat) : Bool :=
  decide (p.validAfter ≤ p.validBefore) && decide (p.validAfter ≤ now) &&
    decide (now ≤ p.validBefore)

/-- A header is structurally malformed when it fails to decode or fails the
    timestamp window check. -/
def malformedHeader (h : List Nat) (now : Nat) : Bool :=
  match decodeXPayment h with
  | none => true
  | some p => !structOk p now

/-! ## Route configuration from src/index.ts -/

inductive Net
  | baseSepolia
  | solana
deriving DecidableEq, Repr

/-- The x402 network identifier string. -/
def netId : Net → String
  | .baseSepolia => "base-sepolia"
  | .solana => "solana"

structure RouteTemplate where
  price : String
  network : Net
  description : String
deriving DecidableEq, Repr

structure RouteKey where
  method : String
  path : String
deriving DecidableEq, Repr

/-- `payaiRoutes` from src/index.ts lines 47–56. -/
def payaiRoutes : List (RouteKey × RouteTemplate) :=
  [(⟨"GET", "/api/weather"⟩,
    ⟨"$0.001", .baseSepolia, "Get current weather data (PayAI/Base)"⟩)]

/-- `dexterRoutes` from src/index.ts lines 61–70. -/
def dexterRoutes : List (RouteKey × RouteTemplate) :=
  [(⟨"POST", "/api/compute"⟩,
    ⟨"$0.05", .solana, "Computational service (Dexter/Solana)"⟩)]

/-- `heuristRoutes` from src/index.ts lines 75–84. -/
def heuristRoutes : List (RouteKey × RouteTemplate) :=
  [(⟨"POST", "/api/ai/image"⟩,
    ⟨"$0.02", .baseSepolia, "AI image generation (Heurist/Base)"⟩)]

/-- `daydreamsRoutes` from src/index.ts lines 89–98. -/
def daydreamsRoutes : List (RouteKey × RouteTemplate) :=
  [(⟨"POST", "/api/agent/task"⟩,
    ⟨"$0.01", .baseSepolia, "Agent task execution (Daydreams/Base)"⟩)]

/-! ## Startup environment validation (src/index.ts lines 7–26) -/

structure Env where
  payaiFacilitatorURL : Option String
  dexterFacilitatorURL : Option String
  heuristFacilitatorURL : Option String
  daydreamsFacilitatorURL : Option String
  evmAddress : Option String
  solanaAddress : Option String
deriving DecidableEq, Repr

structure Config where
  payaiURL : String
  dexterURL : String
  heuristURL : String
  daydreamsURL : String
  evmAddress : String
  solanaAddress : String
deriving DecidableEq, Repr

/-- Shallow embedding of the startup env validation in src/index.ts lines 7–26:
    each facilitator URL falls back to a built-in default when absent; the two
    payment addresses are required, and absence of either aborts startup
    (`process.exit(1)`), modelled as `Except.error` with the logged message. -/
def startup (e : Env) : Except String Config :=
  let payai := e.payaiFacilitatorURL.getD "https://facilitator.payai.network"
  let dexter := e.dexterFacilitatorURL.getD "https://dexter.cash/facilitator"
  let heurist := e.heuristFacilitatorURL.getD "https://facilitator.heurist.xyz"
  let daydreams := e.daydreamsFacilitatorURL.getD "https://facilitator.daydreams.systems"
  match e.evmAddress with
  | none =>
    .error "Error: EVM_ADDRESS environment variable is required (for PayAI/Heurist/Base)"
  | some evm =>
    match e.solanaAddress with
    | none =>
      .error "Error: SOLANA_ADDRESS environment variable is required (for Dexter/Solana)"
    | some sol => .ok ⟨payai, dexter, heurist, daydreams, evm, sol⟩

/-! ## Error-handling middleware (src/index.ts lines 385–392) -/

structure ErrorResponse where
  status : Nat
  success : Bool
  error : String
  message : String
  paymentResponseHeader : Option (List Nat)
deriving DecidableEq, Repr

/-- Shallow embedding of the error-handling middleware in src/index.ts lines
    385–392: it logs `"Error:" ++ message`, then responds 500 with body
    `(success: false, error: "Internal server error", message: err.message)`;
    no receipt or challenge is attached.  The second component is the
    operator-facing log line. -/
def errorHandler (errMessage : String) : ErrorResponse × String :=
  (⟨500, false, "Internal server error", errMessage, none⟩, "Error: " ++ errMessage)

/-! ## Price rendering and the ChallengeBuilder -/

/-- Parse a price string of the form `$<digits>[.<digits>]` into atomic units of
    the 6-decimal settlement asset (as the x402 middleware renders dollar
    prices); `none` on a malformed price or more than 6 fractional digits. -/
def priceAtomic (s : String) : Option Nat :=
  match s.data with
  | '$' :: rest =>
    let intPart := rest.takeWhile Char.isDigit
    let rest2 := rest.dropWhile Char.isDigit
    if intPart = [] then none
    else
      let ip := intPart.foldl (fun a c => a * 10 + (c.toNat - 48)) 0
      match rest2 with
      | [] => some (ip * 1000000)
      | '.' :: fracs =>
        if fracs = [] ∨ 6 < fracs.length ∨ ¬fracs.all Char.isDigit then none
        else
          let fp := fracs.foldl (fun a c => a * 10 + (c.toNat - 48)) 0
          some (ip * 1000000 + fp * 10 ^ (6 - fracs.length))
      | _ => none
  | _ => none

structure AcceptsEntry where
  scheme : String
  network : String
  maxAmountRequired : String
  resource : String
  description : String
  payTo : String
  maxTimeoutSeconds : Nat
deriving DecidableEq, Repr

structure ChallengeBody where
  x402Version : Nat
  error : String
  accepts : List AcceptsEntry
deriving DecidableEq, Repr

/-- Modelled from the spec: `ChallengeBuilder.build` (§4.2) — one accepts entry
    embedding the template's fields plus the concrete `resource = requestURL`
    and `maxAmountRequired = price` rendered as a decimal string in the
    asset's smallest unit. -/
def buildChallenge (payTo : String) (t : RouteTemplate) (requestURL : String) :
    Option ChallengeBody :=
  (priceAtomic t.price).map fun amt =>
    ⟨1, "X-PAYMENT header is required",
      [⟨"exact", netId t.network, Nat.repr amt, requestURL, t.description, payTo, 60⟩]⟩

/-! ## NonceStore (spec §4.5) -/

structure Triple where
  payer : List Nat
  nonce : List Nat
  network : List Nat
deriving DecidableEq, Repr

inductive NonceState
  | reserved
  | redeemed
deriving DecidableEq, Repr

abbrev NonceStore := List (Triple × NonceState)

def nsLookup : NonceStore → Triple → Option NonceState
  | [], _ => none
  | e :: rest, t => if e.1 = t then some e.2 else nsLookup rest t

/-- Modelled from the spec: `NonceStore.reserve` (§4.5) — atomically insert the
    triple if absent; returns whether the reservation succeeded together with
    the updated store. -/
def reserve (s : NonceStore) (t : Triple) : Bool × NonceStore :=
  match nsLookup s t with
  | some _ => (false, s)
  | none => (true, (t, NonceState.reserved) :: s)

/-- Modelled from the spec: `NonceStore.release` (§4.5) — remove a reservation
    that was taken but whose settlement did not complete; a permanently
    redeemed record is never removed. -/
def release (s : NonceStore) (t : Triple) : NonceStore :=
  s.filter (fun e => !(decide (e.1 = t) && decide (e.2 = NonceState.reserved)))

/-- Modelled from the spec: `NonceStore.confirm` (§4.5) — convert a reservation
    into a permanent redeemed record. -/
def confirm (s : NonceStore) (t : Triple) : NonceStore :=
  s.map (fun e => if e.1 = t then (e.1, NonceState.redeemed) else e)

/-- The store's keys are pairwise distinct (maintained by `reserve`). -/
def StoreNodup (s : NonceStore) : Prop := (s.map Prod.fst).Nodup

/-! ## The PaymentGate (spec §4.3) over the middleware chain -/

structure Binding where
  payTo : String
  routes : List (RouteKey × RouteTemplate)
  url : String
deriving DecidableEq, Repr

/-- The middleware chain applied in src/index.ts lines 100–142, in source
    order, parameterized by the validated configuration. -/
def middlewareChain (c : Config) : List Binding :=
  [⟨c.evmAddress, payaiRoutes, c.payaiURL⟩,
   ⟨c.solanaAddress, dexterRoutes, c.dexterURL⟩,
   ⟨c.evmAddress, heuristRoutes, c.heuristURL⟩,
   ⟨c.evmAddress, daydreamsRoutes, c.daydreamsURL⟩]

def findRoute : List (RouteKey × RouteTemplate) → RouteKey → Option RouteTemplate
  | [], _ => none
  | e :: rest, k => if e.1 = k then some e.2 else findRoute rest k

/-- Modelled from the spec: route resolution over the middleware chain —
    express runs the facilitator middlewares in order, and the first binding
    whose route table matches the request handles it. -/
def findBinding : List Binding → RouteKey → Option (Binding × RouteTemplate)
  | [], _ => none
  | b :: rest, k =>
    match findRoute b.routes k with
    | some t => some (b, t)
    | none => findBinding rest k

inductive CallKind
  | verify
  | settle
deriving DecidableEq, Repr

structure FacCall where
  url : String
  kind : CallKind
deriving DecidableEq, Repr

/-- The external facilitator's behavior for one request: the two verdicts and
    the receipt fields it reports on settlement. -/
structure FacVerdict where
  verifyOk : Bool
  settleOk : Bool
  txRef : List Nat
  settledAt : List Nat
deriving DecidableEq, Repr

inductive Reason
  | MalformedPayment
  | ReplayedPayment
  | PaymentVerificationFailed
  | FacilitatorUnavailable
deriving DecidableEq, Repr

inductive Outcome
  | passedThrough
  | challenged (c : Option ChallengeBody)
  | denied (r : Reason)
  | granted (receipt : SettlementReceipt)
deriving DecidableEq, Repr

structure GateResult where
  outcome : Outcome
  store : NonceStore
  calls : List FacCall
  receiptHeader : Option (List Nat)
deriving DecidableEq, Repr

def tripleOf (p : PaymentPayload) : Triple := ⟨p.payer, p.nonce, p.network⟩

/-- Modelled from the spec: the PaymentGate state machine of §4.3 for a single
    request processed to completion: route lookup, challenge on a missing
    header, structural validation before any facilitator call, atomic nonce
    reservation, verify, settle, receipt attachment.  `fac` gives the
    facilitator verdicts keyed by facilitator URL; `calls` records the remote
    calls made on behalf of this request. -/
def processRequest (chain : List Binding) (fac : String → FacVerdict) (k : RouteKey)
    (requestURL : String) (header : Option (List Nat)) (now : Nat)
    (store : NonceStore) : GateResult :=
  match findBinding chain k with
  | none => ⟨.passedThrough, store, [], none⟩
  | some (b, t) =>
    match header with
    | none => ⟨.challenged (buildChallenge b.payTo t requestURL), store, [], none⟩
    | some h =>
      match decodeXPayment h with
      | none => ⟨.denied .MalformedPayment, store, [], none⟩
      | some p =>
        if !structOk p now then ⟨.denied .MalformedPayment, store, [], none⟩
        else
          let tr := tripleOf p
          let res := reserve store tr
          if !res.1 then ⟨.denied .ReplayedPayment, store, [], none⟩
          else if !(fac b.url).verifyOk then
            ⟨.denied .PaymentVerificationFailed, release res.2 tr,
              [⟨b.url, .verify⟩], none⟩
          else if !(fac b.url).settleOk then
            ⟨.denied .FacilitatorUnavailable, release res.2 tr,
              [⟨b.url, .verify⟩, ⟨b.url, .settle⟩], none⟩
          else
            let receipt : SettlementReceipt :=
              ⟨true, strBytes (netId t.network), p.payer,
                (fac b.url).txRef, (fac b.url).settledAt⟩
            ⟨.granted receipt, confirm res.2 tr,
              [⟨b.url, .verify⟩, ⟨b.url, .settle⟩],
              some (encodeReceiptHeader receipt)⟩

/-! ## RouteRegistry registration (spec §4.1) -/

structure RegEntry where
  method : String
  path : String
  template : RouteTemplate
  bindingUrl : String
deriving DecidableEq, Repr

/-- Modelled from the spec: `RouteRegistry.register` (§4.1) — fails with a
    ConfigurationError when the (method, path) pair is already registered by a
    different facilitator binding. -/
def registerRoute (reg : List RegEntry) (m p : String) (t : RouteTemplate)
    (burl : String) : Except String (List RegEntry) :=
  if reg.any (fun e => decide (e.method = m) && decide (e.path = p) &&
      decide (e.bindingUrl ≠ burl)) then
    .error "ConfigurationError: route already registered by a different binding"
  else
    .ok (⟨m, p, t, burl⟩ :: reg)

/-- Fold a list of registrations through `registerRoute`, aborting on the first
    configuration error. -/
def buildRegistry : List RegEntry → List RegEntry → Except String (List RegEntry)
  | [], acc => .ok acc
  | e :: rest, acc =>
    match registerRoute acc e.method e.path e.template e.bindingUrl with
    | .error msg => .error msg
    | .ok acc' => buildRegistry rest acc'

/-- Pairwise route disjointness across facilitator bindings: two entries for
    the same (method, path) always belong to the same binding. -/
def DisjointReg (reg : List RegEntry) : Prop :=
  ∀ e1 ∈ reg, ∀ e2 ∈ reg,
    e1.method = e2.method → e1.path = e2.path → e1.bindingUrl = e2.bindingUrl

instance (reg : List RegEntry) : Decidable (DisjointReg reg) := by
  unfold DisjointReg; infer_instance

/-- The registrations induced by the four middleware applications in
    src/index.ts lines 100–142 (each route table with its facilitator URL). -/
def sourceRegistrations (c : Config) : List RegEntry :=
  (payaiRoutes.map fun e => ⟨e.1.method, e.1.path, e.2, c.payaiURL⟩) ++
  (dexterRoutes.map fun e => ⟨e.1.method, e.1.path, e.2, c.dexterURL⟩) ++
  (heuristRoutes.map fun e => ⟨e.1.method, e.1.path, e.2, c.heuristURL⟩) ++
  (daydreamsRoutes.map fun e => ⟨e.1.method, e.1.path, e.2, c.daydreamsURL⟩)

/-! ## Concurrent submissions of payment payloads (spec §5)

Each submission is a little state machine (§4.3); `reserve`, `release` and
`confirm` are atomic per key (§5), so an arbitrary concurrent execution is an
arbitrary interleaving of these atomic transitions, modelled by a schedule. -/

inductive Phase
  | initial
  | reservedP
  | verifiedP
  | grantedP
  | deniedP (r : Reason)
deriving DecidableEq, Repr

structure Subm where
  triple : Triple
  verifyOk : Bool
  settleOk : Bool
  phase : Phase
deriving DecidableEq, Repr

structure MState where
  store : NonceStore
  subs : List Subm
deriving DecidableEq, Repr

/-- Modelled from the spec: one atomic transition of a submission in the §4.3
    state machine — the check-and-reserve, the verify verdict, and the settle
    verdict each take one atomic step, performing the §4.5 NonceStore
    operation inside it; terminal phases do not move. -/
def stepSub (store : NonceStore) (s : Subm) : Subm × NonceStore :=
  match s.phase with
  | .initial =>
    let res := reserve store s.triple
    if res.1 then ({ s with phase := .reservedP }, res.2)
    else ({ s with phase := .deniedP .ReplayedPayment }, store)
  | .reservedP =>
    if s.verifyOk then ({ s with phase := .verifiedP }, store)
    else ({ s with phase := .deniedP .PaymentVerificationFailed }, release store s.triple)
  | .verifiedP =>
    if s.settleOk then ({ s with phase := .grantedP }, confirm store s.triple)
    else ({ s with phase := .deniedP .FacilitatorUnavailable }, release store s.triple)
  | _ => (s, store)

/-- Run one atomic step of the submission at index `i` (no-op out of range). -/
def stepAt (g : MState) (i : Nat) : MState :=
  match g.subs[i]? with
  | none => g
  | some s =>
    let r := stepSub g.store s
    ⟨r.2, g.subs.set i r.1⟩

/-- Run a schedule: an arbitrary interleaving of the submissions' atomic steps. -/
def run (g : MState) : List Nat → MState
  | [] => g
  | i :: rest => run (stepAt g i) rest

def activeP (t : Triple) (s : Subm) : Bool :=
  decide (s.triple = t) &&
    (decide (s.phase = Phase.reservedP) || decide (s.phase = Phase.verifiedP))

def grantedPred (t : Triple) (s : Subm) : Bool :=
  decide (s.triple = t) && decide (s.phase = Phase.grantedP)

/-- How many submissions for triple `t` currently hold the reservation. -/
def activeCount (subs : List Subm) (t : Triple) : Nat := subs.countP (activeP t)

/-- How many submissions for triple `t` have been granted. -/
def grantedCount (subs : List Subm) (t : Triple) : Nat := subs.countP (grantedPred t)

/-- What the store's entry for a triple says about the submissions. -/
def statusSpec (subs : List Subm) (t : Triple) : Option NonceState → Prop
  | none => activeCount subs t = 0 ∧ grantedCount subs t = 0
  | some .reserved => activeCount subs t = 1 ∧ grantedCount subs t = 0
  | some .redeemed => activeCount subs t = 0 ∧ grantedCount subs t = 1

/-- Denial provenance: verification/settlement denials only happen on a
    facilitator rejection, and the machine never produces a malformed denial. -/
def DeniedSpec (subs : List Subm) : Prop :=
  ∀ s ∈ subs,
    (s.phase = Phase.deniedP Reason.PaymentVerificationFailed → s.verifyOk = false) ∧
    (s.phase = Phase.deniedP Reason.FacilitatorUnavailable → s.settleOk = false) ∧
    (s.phase ≠ Phase.deniedP Reason.MalformedPayment)

/-- The machine invariant. -/
def MInv (g : MState) : Prop :=
  StoreNodup g.store ∧ (∀ t, statusSpec g.subs t (nsLookup g.store t)) ∧
    DeniedSpec g.subs

/-! ## Concrete witness data -/

/-- A concrete validated configuration (the default facilitator URLs with
    concrete payee addresses). -/
def cfg0 : Config :=
  ⟨"https://facilitator.payai.network", "https://dexter.cash/facilitator",
   "https://facilitator.heurist.xyz", "https://facilitator.daydreams.systems",
   "0xMERCHANT", "So1anaMerchant1111"⟩

/-- A concrete structurally valid payload for the weather route's network. -/
def payload0 : PaymentPayload :=
  ⟨strBytes "base-sepolia", strBytes "0xPAYER", strBytes "n-1", 10, 1000,
   strBytes "sig"⟩

/-- The concrete X-PAYMENT header carrying `payload0`. -/
def header0 : List Nat := b64Encode (jsonOfPayload payload0)

def facAllOk : String → FacVerdict :=
  fun _ => ⟨true, true, strBytes "0xtxref", strBytes "2026-01-01T00:00:00Z"⟩

def facVerifyFail : String → FacVerdict := fun _ => ⟨false, true, [], []⟩

def facSettleFail : String → FacVerdict := fun _ => ⟨true, false, [], []⟩

/-- A concrete wire-safe receipt. -/
def receipt0 : SettlementReceipt :=
  ⟨true, strBytes "base-sepolia", strBytes "0xPAYER", strBytes "0xtxref",
   strBytes "2026-01-01T00:00:00Z"⟩

/-- The concrete (payer, nonce, network) triple of `payload0`. -/
def t0 : Triple := ⟨strBytes "0xPAYER", strBytes "n-1", strBytes "base-sepolia"⟩

/-- Three concurrent submissions of the same payload against a reachable,
    accepting facilitator. -/
def subs0c : List Subm :=
  [⟨t0, true, true, Phase.initial⟩, ⟨t0, true, true, Phase.initial⟩,
   ⟨t0, true, true, Phase.initial⟩]

/-- One concrete interleaving of the three submissions' atomic steps. -/
def sched0 : List Nat := [0, 1, 0, 2, 0, 1, 2]

/-- The weather route key from src/index.ts. -/
def kWeather : RouteKey := ⟨"GET", "/api/weather"⟩

/-- A concrete fully qualified request URL for the weather route. -/
def url0 : String := "http://localhost:4021/api/weather"

/-- An environment with both payee addresses but no facilitator URL set. -/
def envNoURLs : Env := ⟨none, none, none, none, some "0xM", some "S1"⟩

/-- A concrete route template used in registration examples. -/
def wt0 : RouteTemplate := ⟨"$0.001", Net.baseSepolia, "w"⟩

/-- The PayAI binding of `middlewareChain cfg0`. -/
def payaiBinding0 : Binding :=
  ⟨"0xMERCHANT", payaiRoutes, "https://facilitator.payai.network"⟩

/-- The weather route template from src/index.ts. -/
def weatherTemplate : RouteTemplate :=
  ⟨"$0.001", Net.baseSepolia, "Get current weather data (PayAI/Base)"⟩

/-! # Theorems -/

/-! ## Base64 -/

theorem b64Val_b64Char : ∀ n < 64, b64Val (b64Char n) = some n := by decide

theorem b64Char_ne_eq : ∀ n < 64, b64Char n ≠ 61 := by decide

/-- Decoding inverts encoding on genuine byte lists. -/
theorem b64_roundtrip : ∀ l : List Nat, (∀ b ∈ l, b < 256) →
    b64Decode (b64Encode l) = some l
  | [], _ => rfl
  | [a], h => by
    have ha : a < 256 := h a (by simp)
    have h1 : b64Val (b64Char (a / 4)) = some (a / 4) := b64Val_b64Char _ (by omega)
    have h2 : b64Val (b64Char (a % 4 * 16)) = some (a % 4 * 16) := b64Val_b64Char _ (by omega)
    have e1 : a % 4 * 16 % 16 = 0 := by omega
    have e2 : a / 4 * 4 + a % 4 * 16 / 16 = a := by omega
    simp [b64Encode, b64Decode, h1, h2, e1, e2]
    omega
  | [a, b], h => by
    have ha : a < 256 := h a (by simp)
    have hb : b < 256 := h b (by simp)
    have h1 : b64Val (b64Char (a / 4)) = some (a / 4) := b64Val_b64Char _ (by omega)
    have h2 : b64Val (b64Char (a % 4 * 16 + b / 16)) = some (a % 4 * 16 + b / 16) :=
      b64Val_b64Char _ (by omega)
    have h3 : b64Val (b64Char (b % 16 * 4)) = some (b % 16 * 4) := b64Val_b64Char _ (by omega)
    have n3 : b64Char (b % 16 * 4) ≠ 61 := b64Char_ne_eq _ (by omega)
    have e1 : b % 16 * 4 % 4 = 0 := by omega
    have e2 : a / 4 * 4 + (a % 4 * 16 + b / 16) / 16 = a := by omega
    have e3 : (a % 4 * 16 + b / 16) % 16 * 16 + b % 16 * 4 / 4 = b := by omega
    simp [b64Encode, b64Decode, h1, h2, h3, n3, e1, e2, e3]
    omega
  | a :: b :: c :: d :: rest, h => by
    have ha : a < 256 := h a (by simp)
    have hb : b < 256 := h b (by simp)
    have hc : c < 256 := h c (by simp)
    have ih := b64_roundtrip (d :: rest) (fun x hx => h x (by simp at hx ⊢; tauto))
    have h1 : b64Val (b64Char (a / 4)) = some (a / 4) := b64Val_b64Char _ (by omega)
    have h2 : b64Val (b64Char (a % 4 * 16 + b / 16)) = some (a % 4 * 16 + b / 16) :=
      b64Val_b64Char _ (by omega)
    have h3 : b64Val (b64Char (b % 16 * 4 + c / 64)) = some (b % 16 * 4 + c / 64) :=
      b64Val_b64Char _ (by omega)
    have h4 : b64Val (b64Char (c % 64)) = some (c % 64) := b64Val_b64Char _ (by omega)
    have n3 : b64Char (b % 16 * 4 + c / 64) ≠ 61 := b64Char_ne_eq _ (by omega)
    have n4 : b64Char (c % 64) ≠ 61 := b64Char_ne_eq _ (by omega)
    have e1 : a / 4 * 4 + (a % 4 * 16 + b / 16) / 16 = a := by omega
    have e2 : (a % 4 * 16 + b / 16) % 16 * 16 + (b % 16 * 4 + c / 64) / 4 = b := by omega
    have e3 : (b % 16 * 4 + c / 64) % 4 * 64 + c % 64 = c := by omega
    simp [b64Encode, b64Decode, h1, h2, h3, h4, n3, n4, ih, e1, e2, e3]
  | [a, b, c], h => by
    have ha : a < 256 := h a (by simp)
    have hb : b < 256 := h b (by simp)
    have hc : c < 256 := h c (by simp)
    have h1 : b64Val (b64Char (a / 4)) = some (a / 4) := b64Val_b64Char _ (by omega)
    have h2 : b64Val (b64Char (a % 4 * 16 + b / 16)) = some (a % 4 * 16 + b / 16) :=
      b64Val_b64Char _ (by omega)
    have h3 : b64Val (b64Char (b % 16 * 4 + c / 64)) = some (b % 16 * 4 + c / 64) :=
      b64Val_b64Char _ (by omega)
    have h4 : b64Val (b64Char (c % 64)) = some (c % 64) := b64Val_b64Char _ (by omega)
    have n3 : b64Char (b % 16 * 4 + c / 64) ≠ 61 := b64Char_ne_eq _ (by omega)
    have n4 : b64Char (c % 64) ≠ 61 := b64Char_ne_eq _ (by omega)
    have e1 : a / 4 * 4 + (a % 4 * 16 + b / 16) / 16 = a := by omega
    have e2 : (a % 4 * 16 + b / 16) % 16 * 16 + (b % 16 * 4 + c / 64) / 4 = b := by omega
    have e3 : (b % 16 * 4 + c / 64) % 4 * 64 + c % 64 = c := by omega
    simp [b64Encode, b64Decode, h1, h2, h3, h4, n3, n4, e1, e2, e3]

/-! ## Wire format -/

theorem expectLit_append (p r : List Nat) : expectLit p (p ++ r) = some r := by
  induction p with
  | nil => rfl
  | cons c cs ih => simp [expectLit, ih]

theorem expectLit_self (p : List Nat) : expectLit p p = some [] := by
  have := expectLit_append p []
  simpa using this

theorem parseStr_append {f : List Nat} (h : 34 ∉ f) (r : List Nat) :
    parseStr (f ++ 34 :: r) = some (f, r) := by
  induction f with
  | nil => simp [parseStr]
  | cons c cs ih =>
    simp at h
    have hc : ¬c = 34 := fun hh => h.1 hh.symm
    simp [parseStr, hc, ih h.2]

/-! ## Receipt round trip -/

set_option maxHeartbeats 1000000 in
theorem parseReceipt_jsonOfReceipt (r : SettlementReceipt) (h : WireSafe r) :
    parseReceipt (jsonOfReceipt r) = some r := by
  obtain ⟨s, n, p, t, st⟩ := r
  obtain ⟨-, -, -, -, q1, q2, q3, q4⟩ := h
  dsimp only at q1 q2 q3 q4
  have eT : strBytes "true" = [116, 114, 117, 101] := by decide
  have eF : strBytes "false" = [102, 97, 108, 115, 101] := by decide
  cases s <;>
    simp [parseReceipt, jsonOfReceipt, boolBytes, eT, eF, List.append_assoc,
      expectLit_append, parseStr_append q1, parseStr_append q2,
      parseStr_append q3, parseStr_append q4, parseBoolLit, expectLit_self]

theorem jsonOfReceipt_bytes_lt (r : SettlementReceipt) (h : WireSafe r) :
    ∀ b ∈ jsonOfReceipt r, b < 256 := by
  obtain ⟨b1, b2, b3, b4, -, -, -, -⟩ := h
  have s0 : ∀ b ∈ segOpen, b < 256 := by decide
  have s1 : ∀ b ∈ segNetwork, b < 256 := by decide
  have s2 : ∀ b ∈ segPayer, b < 256 := by decide
  have s3 : ∀ b ∈ segTx, b < 256 := by decide
  have s4 : ∀ b ∈ segSettled, b < 256 := by decide
  have s5 : ∀ b ∈ segClose, b < 256 := by decide
  have sb : ∀ b ∈ boolBytes r.success, b < 256 := by
    cases r.success <;> decide
  intro b hb
  simp only [jsonOfReceipt, List.mem_append, List.mem_cons] at hb
  casesm* _ ∨ _
  all_goals first | omega | solve_by_elim

/-- Round trip of the receipt header: client-side decoding of the attached
    `X-PAYMENT-RESPONSE` value recovers the encoded receipt. -/
theorem decode_encodeReceiptHeader (r : SettlementReceipt) (h : WireSafe r) :
    decodePaymentResponse (some (encodeReceiptHeader r)) = some r := by
  simp [decodePaymentResponse, encodeReceiptHeader,
    b64_roundtrip _ (jsonOfReceipt_bytes_lt r h), parseReceipt_jsonOfReceipt r h]

/-! ## NonceStore lemmas -/

theorem nsLookup_cons_eq {e : Triple × NonceState} {rest : NonceStore} {t : Triple}
    (he : e.1 = t) : nsLookup (e :: rest) t = some e.2 := by
  rw [nsLookup, if_pos he]

theorem nsLookup_cons_ne {e : Triple × NonceState} {rest : NonceStore} {t : Triple}
    (he : ¬e.1 = t) : nsLookup (e :: rest) t = nsLookup rest t := by
  rw [nsLookup, if_neg he]

theorem nsLookup_eq_none_iff (s : NonceStore) (t : Triple) :
    nsLookup s t = none ↔ ∀ e ∈ s, e.1 ≠ t := by
  induction s with
  | nil => simp [nsLookup]
  | cons e rest ih =>
    by_cases he : e.1 = t
    · rw [nsLookup_cons_eq he]
      simp [he]
    · rw [nsLookup_cons_ne he]
      simp [ih, he]

theorem nsLookup_of_mem (s : NonceStore) (e : Triple × NonceState)
    (hn : StoreNodup s) (he : e ∈ s) : nsLookup s e.1 = some e.2 := by
  induction s with
  | nil => simp at he
  | cons a rest ih =>
    rw [StoreNodup, List.map_cons, List.nodup_cons] at hn
    rcases List.mem_cons.mp he with rfl | hmem
    · exact nsLookup_cons_eq rfl
    · have hne : ¬a.1 = e.1 := by
        intro hc
        exact hn.1 (hc ▸ List.mem_map_of_mem Prod.fst hmem)
      rw [nsLookup_cons_ne hne]
      exact ih hn.2 hmem

theorem release_of_absent (s : NonceStore) (t : Triple)
    (h : nsLookup s t = none) : release s t = s := by
  rw [nsLookup_eq_none_iff] at h
  rw [release, List.filter_eq_self]
  intro e he
  simp [h e he]

theorem nsLookup_release_other (s : NonceStore) (t t' : Triple) (hne : t' ≠ t) :
    nsLookup (release s t) t' = nsLookup s t' := by
  induction s with
  | nil => rfl
  | cons e rest ih =>
    simp only [release] at ih ⊢
    rw [List.filter_cons]
    by_cases hp : (!(decide (e.1 = t) && decide (e.2 = NonceState.reserved))) = true
    · rw [if_pos hp]
      by_cases he : e.1 = t'
      · rw [nsLookup_cons_eq he, nsLookup_cons_eq he]
      · rw [nsLookup_cons_ne he, nsLookup_cons_ne he]
        exact ih
    · rw [if_neg hp]
      have he1 : e.1 = t := by
        by_contra hc
        simp [hc] at hp
      have he : ¬e.1 = t' := by rw [he1]; exact fun hc => hne hc.symm
      rw [nsLookup_cons_ne he]
      exact ih

theorem nsLookup_release_self (s : NonceStore) (t : Triple) (hn : StoreNodup s)
    (h : nsLookup s t = some NonceState.reserved) :
    nsLookup (release s t) t = none := by
  rw [nsLookup_eq_none_iff]
  intro e he hc
  rw [release, List.mem_filter] at he
  obtain ⟨hmem, hpred⟩ := he
  have hl := nsLookup_of_mem s e hn hmem
  rw [hc, h] at hl
  have he2 : NonceState.reserved = e.2 := by injection hl
  simp [hc, ← he2] at hpred

theorem nsLookup_confirm_self (s : NonceStore) (t : Triple) :
    nsLookup (confirm s t) t = (nsLookup s t).map (fun _ => NonceState.redeemed) := by
  induction s with
  | nil => rfl
  | cons e rest ih =>
    simp only [confirm, List.map_cons] at ih ⊢
    by_cases he : e.1 = t
    · rw [if_pos he, nsLookup_cons_eq he, nsLookup_cons_eq (show (e.1, NonceState.redeemed).1 = t from he)]
      rfl
    · rw [if_neg he, nsLookup_cons_ne he, nsLookup_cons_ne he]
      exact ih

theorem nsLookup_confirm_other (s : NonceStore) (t t' : Triple) (hne : t' ≠ t) :
    nsLookup (confirm s t) t' = nsLookup s t' := by
  induction s with
  | nil => rfl
  | cons e rest ih =>
    simp only [confirm, List.map_cons] at ih ⊢
    by_cases he2 : e.1 = t
    · have hne' : ¬(e.1, NonceState.redeemed).1 = t' := by
        show ¬e.1 = t'
        rw [he2]
        exact fun hc => hne hc.symm
      rw [if_pos he2, nsLookup_cons_ne hne']
      have hne'' : ¬e.1 = t' := hne'
      rw [nsLookup_cons_ne hne'']
      exact ih
    · by_cases he : e.1 = t'
      · rw [if_neg he2, nsLookup_cons_eq he, nsLookup_cons_eq he]
      · rw [if_neg he2, nsLookup_cons_ne he, nsLookup_cons_ne he]
        exact ih

/-! ## Counting helpers for the submission machine -/

theorem getElem?_mem_subm : ∀ (l : List Subm) (i : Nat) (s : Subm),
    l[i]? = some s → s ∈ l
  | [], _, _, h => by simp at h
  | a :: tl, 0, s, h => by
    simp at h
    subst h
    exact List.mem_cons_self a tl
  | a :: tl, i + 1, s, h => by
    simp at h
    exact List.mem_cons_of_mem a (getElem?_mem_subm tl i s h)

theorem countP_set_add (p : Subm → Bool) :
    ∀ (l : List Subm) (i : Nat) (s s' : Subm), l[i]? = some s →
      (l.set i s').countP p + (if p s then 1 else 0) =
        l.countP p + (if p s' then 1 else 0)
  | [], _, _, _, h => by simp at h
  | a :: tl, 0, s, s', h => by
    have ha : a = s := by simpa using h
    rw [ha]
    simp only [List.set]
    rw [List.countP_cons, List.countP_cons]
    cases hps : p s <;> cases hps' : p s' <;> simp [hps, hps'] <;> omega
  | a :: tl, i + 1, s, s', h => by
    simp at h
    have ih := countP_set_add p tl i s s' h
    simp only [List.set]
    rw [List.countP_cons, List.countP_cons]
    cases hps : p s <;> cases hps' : p s' <;> simp [hps, hps'] at ih ⊢ <;> omega

theorem storeNodup_reserve (s : NonceStore) (t : Triple)
    (h : nsLookup s t = none) (hn : StoreNodup s) :
    StoreNodup ((t, NonceState.reserved) :: s) := by
  rw [nsLookup_eq_none_iff] at h
  rw [StoreNodup, List.map_cons, List.nodup_cons]
  refine ⟨?_, hn⟩
  intro hc
  obtain ⟨e, he, hee⟩ := List.mem_map.mp hc
  exact h e he hee

theorem storeNodup_release (s : NonceStore) (t : Triple) (hn : StoreNodup s) :
    StoreNodup (release s t) := by
  exact ((List.filter_sublist s).map Prod.fst).nodup hn

theorem storeNodup_confirm (s : NonceStore) (t : Triple) (hn : StoreNodup s) :
    StoreNodup (confirm s t) := by
  have hkeys : (confirm s t).map Prod.fst = s.map Prod.fst := by
    rw [confirm, List.map_map]
    apply List.map_congr_left
    intro e _
    by_cases he : e.1 = t <;> simp [he]
  rw [StoreNodup, hkeys]
  exact hn

/-! ## Submission machine stepping lemmas -/

theorem reserve_absent {s : NonceStore} {t : Triple} (h : nsLookup s t = none) :
    reserve s t = (true, (t, NonceState.reserved) :: s) := by
  unfold reserve
  rw [h]

theorem reserve_present {s : NonceStore} {t : Triple} {st : NonceState}
    (h : nsLookup s t = some st) : reserve s t = (false, s) := by
  unfold reserve
  rw [h]

theorem stepSub_initial_ok {store : NonceStore} {s : Subm}
    (hp : s.phase = Phase.initial) (hr : nsLookup store s.triple = none) :
    stepSub store s =
      ({ s with phase := Phase.reservedP }, (s.triple, NonceState.reserved) :: store) := by
  unfold stepSub
  rw [hp]
  dsimp only
  rw [reserve_absent hr]
  rfl

theorem stepSub_initial_replay {store : NonceStore} {s : Subm} {st : NonceState}
    (hp : s.phase = Phase.initial) (hr : nsLookup store s.triple = some st) :
    stepSub store s = ({ s with phase := Phase.deniedP Reason.ReplayedPayment }, store) := by
  unfold stepSub
  rw [hp]
  dsimp only
  rw [reserve_present hr]
  rfl

theorem stepSub_reservedP_ok {store : NonceStore} {s : Subm}
    (hp : s.phase = Phase.reservedP) (hv : s.verifyOk = true) :
    stepSub store s = ({ s with phase := Phase.verifiedP }, store) := by
  unfold stepSub
  rw [hp]
  dsimp only
  rw [hv]
  rfl

theorem stepSub_reservedP_fail {store : NonceStore} {s : Subm}
    (hp : s.phase = Phase.reservedP) (hv : s.verifyOk = false) :
    stepSub store s = ({ s with phase := Phase.deniedP Reason.PaymentVerificationFailed },
      release store s.triple) := by
  unfold stepSub
  rw [hp]
  dsimp only
  rw [hv]
  rfl

theorem stepSub_verifiedP_ok {store : NonceStore} {s : Subm}
    (hp : s.phase = Phase.verifiedP) (hv : s.settleOk = true) :
    stepSub store s = ({ s with phase := Phase.grantedP }, confirm store s.triple) := by
  unfold stepSub
  rw [hp]
  dsimp only
  rw [hv]
  rfl

theorem stepSub_verifiedP_fail {store : NonceStore} {s : Subm}
    (hp : s.phase = Phase.verifiedP) (hv : s.settleOk = false) :
    stepSub store s = ({ s with phase := Phase.deniedP Reason.FacilitatorUnavailable },
      release store s.triple) := by
  unfold stepSub
  rw [hp]
  dsimp only
  rw [hv]
  rfl

theorem stepSub_grantedP {store : NonceStore} {s : Subm}
    (hp : s.phase = Phase.grantedP) : stepSub store s = (s, store) := by
  unfold stepSub
  rw [hp]

theorem stepSub_deniedP {store : NonceStore} {s : Subm} {r : Reason}
    (hp : s.phase = Phase.deniedP r) : stepSub store s = (s, store) := by
  unfold stepSub
  rw [hp]

theorem statusSpec_congr (subs subs' : List Subm) (t : Triple) (o : Option NonceState)
    (ha : activeCount subs' t = activeCount subs t)
    (hg : grantedCount subs' t = grantedCount subs t)
    (h : statusSpec subs t o) : statusSpec subs' t o := by
  cases o with
  | none => simpa [statusSpec, ha, hg] using h
  | some st => cases st <;> simpa [statusSpec, ha, hg] using h

theorem deniedSpec_set (subs : List Subm) (i : Nat) (s' : Subm)
    (hd : DeniedSpec subs)
    (h1 : s'.phase = Phase.deniedP Reason.PaymentVerificationFailed → s'.verifyOk = false)
    (h2 : s'.phase = Phase.deniedP Reason.FacilitatorUnavailable → s'.settleOk = false)
    (h3 : s'.phase ≠ Phase.deniedP Reason.MalformedPayment) :
    DeniedSpec (subs.set i s') := by
  intro x hx
  rcases List.mem_or_eq_of_mem_set hx with hx | rfl
  · exact hd x hx
  · exact ⟨h1, h2, h3⟩

set_option maxHeartbeats 2000000 in
/-- One interleaved atomic step preserves the machine invariant. -/
theorem stepAt_minv (g : MState) (i : Nat) (h : MInv g) : MInv (stepAt g i) := by
  obtain ⟨hn, hst, hd⟩ := h
  cases hg : g.subs[i]? with
  | none =>
    simp only [stepAt, hg]
    exact ⟨hn, hst, hd⟩
  | some s =>
    have hmem : s ∈ g.subs := getElem?_mem_subm _ _ _ hg
    simp only [stepAt, hg]
    cases hp : s.phase with
    | initial =>
      cases hr : nsLookup g.store s.triple with
      | none =>
        rw [stepSub_initial_ok hp hr]
        dsimp only
        refine ⟨storeNodup_reserve _ _ hr hn, ?_, ?_⟩
        · intro t
          have ha := countP_set_add (activeP t) g.subs i s
            ({ s with phase := Phase.reservedP }) hg
          have hgc := countP_set_add (grantedPred t) g.subs i s
            ({ s with phase := Phase.reservedP }) hg
          by_cases ht : s.triple = t
          · subst ht
            rw [nsLookup_cons_eq rfl]
            dsimp only
            have hsp := hst s.triple
            rw [hr] at hsp
            have h1 : activeP s.triple s = false := by simp [activeP, hp]
            have h2 : activeP s.triple ({ s with phase := Phase.reservedP }) = true := by
              simp [activeP]
            have h3 : grantedPred s.triple s = false := by simp [grantedPred, hp]
            have h4 : grantedPred s.triple ({ s with phase := Phase.reservedP }) = false := by
              simp [grantedPred]
            simp [h1, h2, h3, h4] at ha hgc
            simp only [statusSpec, activeCount, grantedCount] at hsp ⊢
            omega
          · rw [nsLookup_cons_ne (show ¬(s.triple, NonceState.reserved).1 = t from ht)]
            refine statusSpec_congr _ _ _ _ ?_ ?_ (hst t)
            · have h1 : activeP t s = false := by simp [activeP, ht]
              have h2 : activeP t ({ s with phase := Phase.reservedP }) = false := by
                simp [activeP, ht]
              simp [h1, h2] at ha
              simpa [activeCount] using ha
            · have h3 : grantedPred t s = false := by simp [grantedPred, ht]
              have h4 : grantedPred t ({ s with phase := Phase.reservedP }) = false := by
                simp [grantedPred, ht]
              simp [h3, h4] at hgc
              simpa [grantedCount] using hgc
        · exact deniedSpec_set _ _ _ hd (by intro hc; simp at hc)
            (by intro hc; simp at hc) (by simp)
      | some st =>
        rw [stepSub_initial_replay hp hr]
        dsimp only
        refine ⟨hn, ?_, ?_⟩
        · intro t
          refine statusSpec_congr _ _ _ _ ?_ ?_ (hst t)
          · have ha := countP_set_add (activeP t) g.subs i s
              ({ s with phase := Phase.deniedP Reason.ReplayedPayment }) hg
            have h1 : activeP t s = false := by simp [activeP, hp]
            have h2 : activeP t ({ s with phase := Phase.deniedP Reason.ReplayedPayment }) =
                false := by simp [activeP]
            simp [h1, h2] at ha
            simpa [activeCount] using ha
          · have hgc := countP_set_add (grantedPred t) g.subs i s
              ({ s with phase := Phase.deniedP Reason.ReplayedPayment }) hg
            have h3 : grantedPred t s = false := by simp [grantedPred, hp]
            have h4 : grantedPred t ({ s with phase := Phase.deniedP Reason.ReplayedPayment }) =
                false := by simp [grantedPred]
            simp [h3, h4] at hgc
            simpa [grantedCount] using hgc
        · exact deniedSpec_set _ _ _ hd (by intro hc; simp at hc)
            (by intro hc; simp at hc) (by simp)
    | reservedP =>
      cases hv : s.verifyOk with
      | true =>
        rw [stepSub_reservedP_ok hp hv]
        dsimp only
        refine ⟨hn, ?_, ?_⟩
        · intro t
          refine statusSpec_congr _ _ _ _ ?_ ?_ (hst t)
          · have ha := countP_set_add (activeP t) g.subs i s
              ({ s with phase := Phase.verifiedP }) hg
            have h1 : activeP t ({ s with phase := Phase.verifiedP }) = activeP t s := by
              simp [activeP, hp]
            rw [h1] at ha
            simpa [activeCount] using Nat.add_right_cancel ha
          · have hgc := countP_set_add (grantedPred t) g.subs i s
              ({ s with phase := Phase.verifiedP }) hg
            have h3 : grantedPred t ({ s with phase := Phase.verifiedP }) = grantedPred t s := by
              simp [grantedPred, hp]
            rw [h3] at hgc
            simpa [grantedCount] using Nat.add_right_cancel hgc
        · exact deniedSpec_set _ _ _ hd (by intro hc; simp at hc)
            (by intro hc; simp at hc) (by simp)
      | false =>
        have hpos : 0 < g.subs.countP (activeP s.triple) :=
          List.countP_pos_iff.mpr ⟨s, hmem, by simp [activeP, hp]⟩
        have hr : nsLookup g.store s.triple = some NonceState.reserved := by
          rcases hl : nsLookup g.store s.triple with _ | st
          · have hsp := hst s.triple
            rw [hl] at hsp
            simp only [statusSpec, activeCount] at hsp
            exfalso
            omega
          · cases st with
            | reserved => rfl
            | redeemed =>
              have hsp := hst s.triple
              rw [hl] at hsp
              simp only [statusSpec, activeCount] at hsp
              exfalso
              omega
        rw [stepSub_reservedP_fail hp hv]
        dsimp only
        refine ⟨storeNodup_release _ _ hn, ?_, ?_⟩
        · intro t
          have ha := countP_set_add (activeP t) g.subs i s
            ({ s with phase := Phase.deniedP Reason.PaymentVerificationFailed }) hg
          have hgc := countP_set_add (grantedPred t) g.subs i s
            ({ s with phase := Phase.deniedP Reason.PaymentVerificationFailed }) hg
          by_cases ht : s.triple = t
          · subst ht
            rw [nsLookup_release_self _ _ hn hr]
            have hsp := hst s.triple
            rw [hr] at hsp
            have h1 : activeP s.triple s = true := by simp [activeP, hp]
            have h2 : activeP s.triple
                ({ s with phase := Phase.deniedP Reason.PaymentVerificationFailed }) = false := by
              simp [activeP]
            have h3 : grantedPred s.triple s = false := by simp [grantedPred, hp]
            have h4 : grantedPred s.triple
                ({ s with phase := Phase.deniedP Reason.PaymentVerificationFailed }) = false := by
              simp [grantedPred]
            simp [h1, h2, h3, h4] at ha hgc
            simp only [statusSpec, activeCount, grantedCount] at hsp ⊢
            omega
          · rw [nsLookup_release_other _ _ _ (fun hc => ht hc.symm)]
            refine statusSpec_congr _ _ _ _ ?_ ?_ (hst t)
            · have h1 : activeP t s = false := by simp [activeP, ht]
              have h2 : activeP t
                  ({ s with phase := Phase.deniedP Reason.PaymentVerificationFailed }) =
                  false := by simp [activeP, ht]
              simp [h1, h2] at ha
              simpa [activeCount] using ha
            · have h3 : grantedPred t s = false := by simp [grantedPred, ht]
              have h4 : grantedPred t
                  ({ s with phase := Phase.deniedP Reason.PaymentVerificationFailed }) =
                  false := by simp [grantedPred, ht]
              simp [h3, h4] at hgc
              simpa [grantedCount] using hgc
        · exact deniedSpec_set _ _ _ hd (fun _ => hv) (by intro hc; simp at hc) (by simp)
    | verifiedP =>
      cases hv : s.settleOk with
      | true =>
        have hpos : 0 < g.subs.countP (activeP s.triple) :=
          List.countP_pos_iff.mpr ⟨s, hmem, by simp [activeP, hp]⟩
        have hr : nsLookup g.store s.triple = some NonceState.reserved := by
          rcases hl : nsLookup g.store s.triple with _ | st
          · have hsp := hst s.triple
            rw [hl] at hsp
            simp only [statusSpec, activeCount] at hsp
            exfalso
            omega
          · cases st with
            | reserved => rfl
            | redeemed =>
              have hsp := hst s.triple
              rw [hl] at hsp
              simp only [statusSpec, activeCount] at hsp
              exfalso
              omega
        rw [stepSub_verifiedP_ok hp hv]
        dsimp only
        refine ⟨storeNodup_confirm _ _ hn, ?_, ?_⟩
        · intro t
          have ha := countP_set_add (activeP t) g.subs i s
            ({ s with phase := Phase.grantedP }) hg
          have hgc := countP_set_add (grantedPred t) g.subs i s
            ({ s with phase := Phase.grantedP }) hg
          by_cases ht : s.triple = t
          · subst ht
            rw [nsLookup_confirm_self, hr]
            have hsp := hst s.triple
            rw [hr] at hsp
            have h1 : activeP s.triple s = true := by simp [activeP, hp]
            have h2 : activeP s.triple ({ s with phase := Phase.grantedP }) = false := by
              simp [activeP]
            have h3 : grantedPred s.triple s = false := by simp [grantedPred, hp]
            have h4 : grantedPred s.triple ({ s with phase := Phase.grantedP }) = true := by
              simp [grantedPred]
            simp [h1, h2, h3, h4] at ha hgc
            simp only [Option.map_some', statusSpec, activeCount, grantedCount] at hsp ⊢
            omega
          · rw [nsLookup_confirm_other _ _ _ (fun hc => ht hc.symm)]
            refine statusSpec_congr _ _ _ _ ?_ ?_ (hst t)
            · have h1 : activeP t s = false := by simp [activeP, ht]
              have h2 : activeP t ({ s with phase := Phase.grantedP }) = false := by
                simp [activeP, ht]
              simp [h1, h2] at ha
              simpa [activeCount] using ha
            · have h3 : grantedPred t s = false := by simp [grantedPred, ht]
              have h4 : grantedPred t ({ s with phase := Phase.grantedP }) = false := by
                simp [grantedPred, ht]
              simp [h3, h4] at hgc
              simpa [grantedCount] using hgc
        · exact deniedSpec_set _ _ _ hd (by intro hc; simp at hc)
            (by intro hc; simp at hc) (by simp)
      | false =>
        have hpos : 0 < g.subs.countP (activeP s.triple) :=
          List.countP_pos_iff.mpr ⟨s, hmem, by simp [activeP, hp]⟩
        have hr : nsLookup g.store s.triple = some NonceState.reserved := by
          rcases hl : nsLookup g.store s.triple with _ | st
          · have hsp := hst s.triple
            rw [hl] at hsp
            simp only [statusSpec, activeCount] at hsp
            exfalso
            omega
          · cases st with
            | reserved => rfl
            | redeemed =>
              have hsp := hst s.triple
              rw [hl] at hsp
              simp only [statusSpec, activeCount] at hsp
              exfalso
              omega
        rw [stepSub_verifiedP_fail hp hv]
        dsimp only
        refine ⟨storeNodup_release _ _ hn, ?_, ?_⟩
        · intro t
          have ha := countP_set_add (activeP t) g.subs i s
            ({ s with phase := Phase.deniedP Reason.FacilitatorUnavailable }) hg
          have hgc := countP_set_add (grantedPred t) g.subs i s
            ({ s with phase := Phase.deniedP Reason.FacilitatorUnavailable }) hg
          by_cases ht : s.triple = t
          · subst ht
            rw [nsLookup_release_self _ _ hn hr]
            have hsp := hst s.triple
            rw [hr] at hsp
            have h1 : activeP s.triple s = true := by simp [activeP, hp]
            have h2 : activeP s.triple
                ({ s with phase := Phase.deniedP Reason.FacilitatorUnavailable }) = false := by
              simp [activeP]
            have h3 : grantedPred s.triple s = false := by simp [grantedPred, hp]
            have h4 : grantedPred s.triple
                ({ s with phase := Phase.deniedP Reason.FacilitatorUnavailable }) = false := by
              simp [grantedPred]
            simp [h1, h2, h3, h4] at ha hgc
            simp only [statusSpec, activeCount, grantedCount] at hsp ⊢
            omega
          · rw [nsLookup_release_other _ _ _ (fun hc => ht hc.symm)]
            refine statusSpec_congr _ _ _ _ ?_ ?_ (hst t)
            · have h1 : activeP t s = false := by simp [activeP, ht]
              have h2 : activeP t
                  ({ s with phase := Phase.deniedP Reason.FacilitatorUnavailable }) = false := by
                simp [activeP, ht]
              simp [h1, h2] at ha
              simpa [activeCount] using ha
            · have h3 : grantedPred t s = false := by simp [grantedPred, ht]
              have h4 : grantedPred t
                  ({ s with phase := Phase.deniedP Reason.FacilitatorUnavailable }) = false := by
                simp [grantedPred, ht]
              simp [h3, h4] at hgc
              simpa [grantedCount] using hgc
        · exact deniedSpec_set _ _ _ hd (by intro hc; simp at hc) (fun _ => hv) (by simp)
    | grantedP =>
      rw [stepSub_grantedP hp]
      dsimp only
      refine ⟨hn, ?_, ?_⟩
      · intro t
        refine statusSpec_congr _ _ _ _ ?_ ?_ (hst t)
        · have ha := countP_set_add (activeP t) g.subs i s s hg
          simpa [activeCount] using Nat.add_right_cancel ha
        · have hgc := countP_set_add (grantedPred t) g.subs i s s hg
          simpa [grantedCount] using Nat.add_right_cancel hgc
      · exact deniedSpec_set _ _ _ hd (hd s hmem).1 (hd s hmem).2.1 (hd s hmem).2.2
    | deniedP r =>
      rw [stepSub_deniedP hp]
      dsimp only
      refine ⟨hn, ?_, ?_⟩
      · intro t
        refine statusSpec_congr _ _ _ _ ?_ ?_ (hst t)
        · have ha := countP_set_add (activeP t) g.subs i s s hg
          simpa [activeCount] using Nat.add_right_cancel ha
        · have hgc := countP_set_add (grantedPred t) g.subs i s s hg
          simpa [grantedCount] using Nat.add_right_cancel hgc
      · exact deniedSpec_set _ _ _ hd (hd s hmem).1 (hd s hmem).2.1 (hd s hmem).2.2

/-- Any schedule preserves the machine invariant. -/
theorem run_minv (sched : List Nat) : ∀ g : MState, MInv g → MInv (run g sched) := by
  induction sched with
  | nil =>
    intro g h
    exact h
  | cons i rest ih =>
    intro g h
    exact ih _ (stepAt_minv g i h)

/-- Stepping never changes a submission's triple or facilitator verdicts. -/
theorem stepAt_mem (g : MState) (i : Nat) :
    ∀ y ∈ (stepAt g i).subs, ∃ z ∈ g.subs,
      z.triple = y.triple ∧ z.verifyOk = y.verifyOk ∧ z.settleOk = y.settleOk := by
  intro y hy
  cases hg : g.subs[i]? with
  | none =>
    simp only [stepAt, hg] at hy
    exact ⟨y, hy, rfl, rfl, rfl⟩
  | some s =>
    simp only [stepAt, hg] at hy
    rcases List.mem_or_eq_of_mem_set hy with hy | rfl
    · exact ⟨y, hy, rfl, rfl, rfl⟩
    · refine ⟨s, getElem?_mem_subm _ _ _ hg, ?_⟩
      cases hp : s.phase <;> simp only [stepSub, hp] <;> (try split) <;> simp

theorem run_mem (sched : List Nat) :
    ∀ g : MState, ∀ x ∈ (run g sched).subs, ∃ y ∈ g.subs,
      y.triple = x.triple ∧ y.verifyOk = x.verifyOk ∧ y.settleOk = x.settleOk := by
  induction sched with
  | nil =>
    intro g x hx
    exact ⟨x, hx, rfl, rfl, rfl⟩
  | cons i rest ih =>
    intro g x hx
    simp only [run] at hx
    obtain ⟨y, hy, f1, f2, f3⟩ := ih (stepAt g i) x hx
    obtain ⟨z, hz, g1, g2, g3⟩ := stepAt_mem g i y hy
    exact ⟨z, hz, g1.trans f1, g2.trans f2, g3.trans f3⟩

/-- C1: At-most-once redemption.  For any set of submissions of payment
    payloads and any interleaving of their atomic steps: (a) for every
    (payer, nonce, network) triple at most one submission is granted; (b) the
    set of redeemed/reserved nonces in the store never exceeds the set of
    triples presented by the submissions; (c) if the facilitator accepts every
    submission (so no verification/settlement failures occur), every denied
    submission is denied with `ReplayedPayment`. -/
theorem claim_C1_at_most_once_redemption (subs0 : List Subm) (sched : List Nat)
    (h0 : ∀ s ∈ subs0, s.phase = Phase.initial) :
    (∀ t, grantedCount (run ⟨[], subs0⟩ sched).subs t ≤ 1) ∧
    (∀ t st, nsLookup (run ⟨[], subs0⟩ sched).store t = some st →
      ∃ s ∈ subs0, s.triple = t) ∧
    ((∀ s ∈ subs0, s.verifyOk = true ∧ s.settleOk = true) →
      ∀ s ∈ (run ⟨[], subs0⟩ sched).subs, ∀ r, s.phase = Phase.deniedP r →
        r = Reason.ReplayedPayment) := by
  have hinv0 : MInv ⟨[], subs0⟩ := by
    refine ⟨List.nodup_nil, ?_, ?_⟩
    · intro t
      show statusSpec subs0 t (nsLookup [] t)
      have : nsLookup ([] : NonceStore) t = none := rfl
      rw [this]
      refine ⟨?_, ?_⟩ <;>
        · apply List.countP_eq_zero.mpr
          intro s hs
          simp [activeP, grantedPred, h0 s hs]
    · intro s hs
      simp [h0 s hs]
  have hinv := run_minv sched _ hinv0
  obtain ⟨hn, hst, hd⟩ := hinv
  refine ⟨?_, ?_, ?_⟩
  · intro t
    have hsp := hst t
    rcases hl : nsLookup (run ⟨[], subs0⟩ sched).store t with _ | st
    · rw [hl] at hsp
      simp only [statusSpec] at hsp
      omega
    · cases st <;> (rw [hl] at hsp; simp only [statusSpec] at hsp; omega)
  · intro t st hl
    have hsp := hst t
    rw [hl] at hsp
    have hcount : 0 < activeCount (run ⟨[], subs0⟩ sched).subs t ∨
        0 < grantedCount (run ⟨[], subs0⟩ sched).subs t := by
      cases st <;> simp only [statusSpec] at hsp <;> omega
    have hex : ∃ x ∈ (run ⟨[], subs0⟩ sched).subs, x.triple = t := by
      rcases hcount with hc | hc
      · obtain ⟨x, hx, hpx⟩ := List.countP_pos_iff.mp hc
        simp [activeP] at hpx
        exact ⟨x, hx, hpx.1⟩
      · obtain ⟨x, hx, hpx⟩ := List.countP_pos_iff.mp hc
        simp [grantedPred] at hpx
        exact ⟨x, hx, hpx.1⟩
    obtain ⟨x, hx, hxt⟩ := hex
    obtain ⟨y, hy, f1, -, -⟩ := run_mem sched _ x hx
    exact ⟨y, hy, f1.trans hxt⟩
  · intro hall s hs r hr
    obtain ⟨y, hy, -, f2, f3⟩ := run_mem sched _ s hs
    have hds := hd s hs
    cases r with
    | MalformedPayment => exact absurd hr hds.2.2
    | ReplayedPayment => rfl
    | PaymentVerificationFailed =>
      have hv := hds.1 hr
      have ht := (hall y hy).1
      rw [f2] at ht
      exact Bool.noConfusion (ht.symm.trans hv)
    | FacilitatorUnavailable =>
      have hv := hds.2.1 hr
      have ht := (hall y hy).2
      rw [f3] at ht
      exact Bool.noConfusion (ht.symm.trans hv)

/-- Concrete run of three concurrent submissions of the same payload under an
    accepting facilitator: the at-most-once properties hold for it. -/
theorem claim_C1_witness :
    (∀ t, grantedCount (run ⟨[], subs0c⟩ sched0).subs t ≤ 1) ∧
    (∀ t st, nsLookup (run ⟨[], subs0c⟩ sched0).store t = some st →
      ∃ s ∈ subs0c, s.triple = t) ∧
    ((∀ s ∈ subs0c, s.verifyOk = true ∧ s.settleOk = true) →
      ∀ s ∈ (run ⟨[], subs0c⟩ sched0).subs, ∀ r, s.phase = Phase.deniedP r →
        r = Reason.ReplayedPayment) :=
  claim_C1_at_most_once_redemption subs0c sched0 (by decide)

/-! ## PaymentGate branch lemmas -/

theorem processRequest_malformed (chain : List Binding) (fac : String → FacVerdict)
    (k : RouteKey) (url : String) (h : List Nat) (now : Nat) (store : NonceStore)
    (b : Binding) (t : RouteTemplate)
    (hb : findBinding chain k = some (b, t)) (hm : malformedHeader h now = true) :
    processRequest chain fac k url (some h) now store =
      ⟨Outcome.denied Reason.MalformedPayment, store, [], none⟩ := by
  unfold processRequest
  rw [hb]
  dsimp only
  cases hd : decodeXPayment h with
  | none => rfl
  | some p =>
    unfold malformedHeader at hm
    rw [hd] at hm
    simp at hm
    simp [hm]

/-- C2: a request whose X-PAYMENT header is structurally malformed (bad
    base64/JSON, or timestamp window violated) is denied with
    `MalformedPayment`, with no facilitator call and an unchanged nonce store,
    and resubmitting the same header yields the same denial again with no
    facilitator contact. -/
theorem claim_C2_malformed_idempotent_denial (chain : List Binding)
    (fac : String → FacVerdict) (k : RouteKey) (url : String) (h : List Nat)
    (now : Nat) (store : NonceStore) (b : Binding) (t : RouteTemplate)
    (hb : findBinding chain k = some (b, t)) (hm : malformedHeader h now = true) :
    processRequest chain fac k url (some h) now store =
      ⟨Outcome.denied Reason.MalformedPayment, store, [], none⟩ ∧
    processRequest chain fac k url (some h) now
        (processRequest chain fac k url (some h) now store).store =
      ⟨Outcome.denied Reason.MalformedPayment, store, [], none⟩ := by
  have h1 := processRequest_malformed chain fac k url h now store b t hb hm
  refine ⟨h1, ?_⟩
  rw [h1]
  exact processRequest_malformed chain fac k url h now store b t hb hm

/-- A malformed header on the weather route: denied twice as
    `MalformedPayment`, no facilitator calls, store untouched. -/
theorem claim_C2_witness :
    processRequest (middlewareChain cfg0) facAllOk kWeather url0 (some [0]) 50 [] =
      ⟨Outcome.denied Reason.MalformedPayment, [], [], none⟩ ∧
    processRequest (middlewareChain cfg0) facAllOk kWeather url0 (some [0]) 50
        (processRequest (middlewareChain cfg0) facAllOk kWeather url0 (some [0]) 50 []).store =
      ⟨Outcome.denied Reason.MalformedPayment, [], [], none⟩ :=
  claim_C2_malformed_idempotent_denial (middlewareChain cfg0) facAllOk kWeather url0
    [0] 50 [] payaiBinding0 weatherTemplate (by decide) (by decide)

/-- C3: a request with no payment header to a route registered in the
    middleware chain is answered with a 402 challenge whose body has
    x402Version 1 and exactly one accepts entry, whose resource equals the
    request URL and whose maxAmountRequired is the route's price rendered as a
    decimal string in the asset's smallest unit. -/
theorem claim_C3_challenge_shape (c : Config) (fac : String → FacVerdict)
    (k : RouteKey) (b : Binding) (t : RouteTemplate) (url : String) (now : Nat)
    (store : NonceStore) (amt : Nat)
    (hb : findBinding (middlewareChain c) k = some (b, t))
    (ha : priceAtomic t.price = some amt) :
    ∃ body, processRequest (middlewareChain c) fac k url none now store =
        ⟨Outcome.challenged (some body), store, [], none⟩ ∧
      body.x402Version = 1 ∧ body.accepts.length = 1 ∧
      ∀ e ∈ body.accepts, e.resource = url ∧ e.maxAmountRequired = Nat.repr amt := by
  refine ⟨⟨1, "X-PAYMENT header is required",
    [⟨"exact", netId t.network, Nat.repr amt, url, t.description, b.payTo, 60⟩]⟩,
    ?_, rfl, rfl, ?_⟩
  · unfold processRequest
    rw [hb]
    dsimp only
    unfold buildChallenge
    rw [ha]
    rfl
  · intro e he
    simp at he
    subst he
    exact ⟨rfl, rfl⟩

/-- The weather route ($0.001) challenged with `maxAmountRequired` 1000
    atomic units. -/
theorem claim_C3_witness :
    ∃ body, processRequest (middlewareChain cfg0) facAllOk kWeather url0 none 50 [] =
        ⟨Outcome.challenged (some body), [], [], none⟩ ∧
      body.x402Version = 1 ∧ body.accepts.length = 1 ∧
      ∀ e ∈ body.accepts, e.resource = url0 ∧ e.maxAmountRequired = Nat.repr 1000 :=
  claim_C3_challenge_shape cfg0 facAllOk kWeather payaiBinding0 weatherTemplate url0 50 []
    1000 (by decide) (by decide)

theorem release_cons_self (store : NonceStore) (t : Triple)
    (habs : nsLookup store t = none) :
    release ((t, NonceState.reserved) :: store) t = store := by
  have h1 : release ((t, NonceState.reserved) :: store) t = release store t := by
    rw [release, release, List.filter_cons]
    simp
  rw [h1, release_of_absent _ _ habs]

theorem processRequest_verify_fail (chain : List Binding) (fac : String → FacVerdict)
    (k : RouteKey) (url : String) (h : List Nat) (now : Nat) (store : NonceStore)
    (b : Binding) (t : RouteTemplate) (p : PaymentPayload)
    (hb : findBinding chain k = some (b, t)) (hdec : decodeXPayment h = some p)
    (hok : structOk p now = true) (habs : nsLookup store (tripleOf p) = none)
    (hv : (fac b.url).verifyOk = false) :
    processRequest chain fac k url (some h) now store =
      ⟨Outcome.denied Reason.PaymentVerificationFailed, store,
        [⟨b.url, CallKind.verify⟩], none⟩ := by
  unfold processRequest
  rw [hb]
  dsimp only
  rw [hdec]
  dsimp only
  rw [reserve_absent habs]
  simp [hok, hv, release_cons_self store (tripleOf p) habs]

theorem processRequest_settle_fail (chain : List Binding) (fac : String → FacVerdict)
    (k : RouteKey) (url : String) (h : List Nat) (now : Nat) (store : NonceStore)
    (b : Binding) (t : RouteTemplate) (p : PaymentPayload)
    (hb : findBinding chain k = some (b, t)) (hdec : decodeXPayment h = some p)
    (hok : structOk p now = true) (habs : nsLookup store (tripleOf p) = none)
    (hv : (fac b.url).verifyOk = true) (hs : (fac b.url).settleOk = false) :
    processRequest chain fac k url (some h) now store =
      ⟨Outcome.denied Reason.FacilitatorUnavailable, store,
        [⟨b.url, CallKind.verify⟩, ⟨b.url, CallKind.settle⟩], none⟩ := by
  unfold processRequest
  rw [hb]
  dsimp only
  rw [hdec]
  dsimp only
  rw [reserve_absent habs]
  simp [hok, hv, hs, release_cons_self store (tripleOf p) habs]

theorem processRequest_success (chain : List Binding) (fac : String → FacVerdict)
    (k : RouteKey) (url : String) (h : List Nat) (now : Nat) (store : NonceStore)
    (b : Binding) (t : RouteTemplate) (p : PaymentPayload)
    (hb : findBinding chain k = some (b, t)) (hdec : decodeXPayment h = some p)
    (hok : structOk p now = true) (habs : nsLookup store (tripleOf p) = none)
    (hv : (fac b.url).verifyOk = true) (hs : (fac b.url).settleOk = true) :
    processRequest chain fac k url (some h) now store =
      ⟨Outcome.granted ⟨true, strBytes (netId t.network), p.payer,
          (fac b.url).txRef, (fac b.url).settledAt⟩,
        confirm ((tripleOf p, NonceState.reserved) :: store) (tripleOf p),
        [⟨b.url, CallKind.verify⟩, ⟨b.url, CallKind.settle⟩],
        some (encodeReceiptHeader ⟨true, strBytes (netId t.network), p.payer,
          (fac b.url).txRef, (fac b.url).settledAt⟩)⟩ := by
  unfold processRequest
  rw [hb]
  dsimp only
  rw [hdec]
  dsimp only
  rw [reserve_absent habs]
  simp [hok, hv, hs]

/-- C4: release correctness.  If a structurally valid, unreplayed payment is
    denied because its facilitator rejects verification or is unreachable
    during settlement, the nonce reservation is released (the store is exactly
    as before), and a later resubmission of the same payload against a working
    facilitator is granted — facilitator-failure denial is never permanent. -/
theorem claim_C4_release_correctness (chain : List Binding) (k : RouteKey)
    (url : String) (h : List Nat) (now : Nat) (store : NonceStore) (b : Binding)
    (t : RouteTemplate) (p : PaymentPayload) (fac1 fac2 : String → FacVerdict)
    (hb : findBinding chain k = some (b, t)) (hdec : decodeXPayment h = some p)
    (hok : structOk p now = true) (habs : nsLookup store (tripleOf p) = none)
    (hf1 : (fac1 b.url).verifyOk = false ∨
      ((fac1 b.url).verifyOk = true ∧ (fac1 b.url).settleOk = false))
    (hf2v : (fac2 b.url).verifyOk = true) (hf2s : (fac2 b.url).settleOk = true) :
    ((processRequest chain fac1 k url (some h) now store).outcome =
        Outcome.denied Reason.PaymentVerificationFailed ∨
      (processRequest chain fac1 k url (some h) now store).outcome =
        Outcome.denied Reason.FacilitatorUnavailable) ∧
    (processRequest chain fac1 k url (some h) now store).store = store ∧
    ∃ rc, (processRequest chain fac2 k url (some h) now
        (processRequest chain fac1 k url (some h) now store).store).outcome =
      Outcome.granted rc := by
  have h2 := processRequest_success chain fac2 k url h now store b t p hb hdec hok habs
    hf2v hf2s
  rcases hf1 with hv | ⟨hv, hs⟩
  · have h1 := processRequest_verify_fail chain fac1 k url h now store b t p hb hdec hok
      habs hv
    rw [h1]
    exact ⟨Or.inl rfl, rfl, ⟨_, by rw [h2]⟩⟩
  · have h1 := processRequest_settle_fail chain fac1 k url h now store b t p hb hdec hok
      habs hv hs
    rw [h1]
    exact ⟨Or.inr rfl, rfl, ⟨_, by rw [h2]⟩⟩

/-- The weather payment `payload0`, denied by an unreachable facilitator and
    then granted on resubmission once the facilitator recovers. -/
theorem claim_C4_witness :
    ((processRequest (middlewareChain cfg0) facVerifyFail kWeather url0 (some header0)
        50 []).outcome = Outcome.denied Reason.PaymentVerificationFailed ∨
      (processRequest (middlewareChain cfg0) facVerifyFail kWeather url0 (some header0)
        50 []).outcome = Outcome.denied Reason.FacilitatorUnavailable) ∧
    (processRequest (middlewareChain cfg0) facVerifyFail kWeather url0 (some header0)
      50 []).store = [] ∧
    ∃ rc, (processRequest (middlewareChain cfg0) facAllOk kWeather url0 (some header0) 50
        (processRequest (middlewareChain cfg0) facVerifyFail kWeather url0 (some header0)
          50 []).store).outcome = Outcome.granted rc :=
  claim_C4_release_correctness (middlewareChain cfg0) kWeather url0 header0 50 []
    payaiBinding0 weatherTemplate payload0 facVerifyFail facAllOk (by decide) (by decide)
    (by decide) (by decide) (Or.inl (by decide)) (by decide) (by decide)

/-- C6: route isolation.  A request resolved to binding `b` by the middleware
    chain only ever produces facilitator calls against `b`'s facilitator URL;
    any other binding's facilitator (with a distinct URL, as bindings with
    disjoint route sets have here) is never invoked for that request. -/
theorem claim_C6_route_isolation (chain : List Binding) (fac : String → FacVerdict)
    (k : RouteKey) (url : String) (header : Option (List Nat)) (now : Nat)
    (store : NonceStore) (b : Binding) (t : RouteTemplate)
    (hb : findBinding chain k = some (b, t)) :
    (∀ cl ∈ (processRequest chain fac k url header now store).calls, cl.url = b.url) ∧
    (∀ b' : Binding, b'.url ≠ b.url →
      ∀ cl ∈ (processRequest chain fac k url header now store).calls, cl.url ≠ b'.url) := by
  have key : ∀ cl ∈ (processRequest chain fac k url header now store).calls,
      cl.url = b.url := by
    intro cl hcl
    unfold processRequest at hcl
    rw [hb] at hcl
    dsimp only at hcl
    rcases header with _ | h
    · simp at hcl
    · dsimp only at hcl
      rcases hdx : decodeXPayment h with _ | p
      · rw [hdx] at hcl
        simp at hcl
      · rw [hdx] at hcl
        dsimp only at hcl
        split at hcl
        · simp at hcl
        · split at hcl
          · simp at hcl
          · split at hcl
            · simp at hcl
              subst hcl
              rfl
            · split at hcl
              · simp at hcl
                rcases hcl with rfl | rfl <;> rfl
              · simp at hcl
                rcases hcl with rfl | rfl <;> rfl
  exact ⟨key, fun b' hne cl hcl hc => hne (hc ▸ key cl hcl)⟩

/-- A request on the weather route only calls the PayAI facilitator, never the
    Dexter, Heurist or Daydreams ones. -/
theorem claim_C6_witness :
    (∀ cl ∈ (processRequest (middlewareChain cfg0) facAllOk kWeather url0 (some header0)
        50 []).calls, cl.url = payaiBinding0.url) ∧
    (∀ b' : Binding, b'.url ≠ payaiBinding0.url →
      ∀ cl ∈ (processRequest (middlewareChain cfg0) facAllOk kWeather url0 (some header0)
        50 []).calls, cl.url ≠ b'.url) :=
  claim_C6_route_isolation (middlewareChain cfg0) facAllOk kWeather url0 (some header0)
    50 [] payaiBinding0 weatherTemplate (by decide)

theorem processRequest_granted_header (chain : List Binding) (fac : String → FacVerdict)
    (k : RouteKey) (url : String) (header : Option (List Nat)) (now : Nat)
    (store : NonceStore) (r : SettlementReceipt) :
    (processRequest chain fac k url header now store).outcome = Outcome.granted r →
    (processRequest chain fac k url header now store).receiptHeader =
      some (encodeReceiptHeader r) := by
  intro hg
  unfold processRequest at hg ⊢
  rcases hfb : findBinding chain k with _ | ⟨b, t⟩
  · rw [hfb] at hg
    simp at hg
  · rw [hfb] at hg
    dsimp only at hg ⊢
    rcases header with _ | h
    · simp at hg
    · dsimp only at hg ⊢
      rcases hdx : decodeXPayment h with _ | p
      · rw [hdx] at hg
        simp at hg
      · rw [hdx] at hg
        dsimp only at hg ⊢
        split at hg
        · simp at hg
        · rename_i hc1
          rw [if_neg hc1]
          split at hg
          · simp at hg
          · rename_i hc2
            rw [if_neg hc2]
            split at hg
            · simp at hg
            · rename_i hc3
              rw [if_neg hc3]
              split at hg
              · simp at hg
              · rename_i hc4
                rw [if_neg hc4]
                dsimp only at hg ⊢
                injection hg with hg
                rw [← hg]

/-- C8: receipt round trip.  Whenever the gate grants a request, the response
    carries `X-PAYMENT-RESPONSE = base64(json(SettlementReceipt))` for the
    granted receipt, and the client-side decoder recovers exactly that
    receipt. -/
theorem claim_C8_receipt_roundtrip (chain : List Binding) (fac : String → FacVerdict)
    (k : RouteKey) (url : String) (header : Option (List Nat)) (now : Nat)
    (store : NonceStore) (r : SettlementReceipt)
    (hg : (processRequest chain fac k url header now store).outcome = Outcome.granted r)
    (hw : WireSafe r) :
    (processRequest chain fac k url header now store).receiptHeader =
      some (encodeReceiptHeader r) ∧
    decodePaymentResponse
      (processRequest chain fac k url header now store).receiptHeader = some r := by
  have h1 := processRequest_granted_header chain fac k url header now store r hg
  refine ⟨h1, ?_⟩
  rw [h1]
  exact decode_encodeReceiptHeader r hw

/-- A granted weather payment carries a receipt header that decodes back to
    the settlement receipt. -/
theorem claim_C8_witness :
    (processRequest (middlewareChain cfg0) facAllOk kWeather url0 (some header0) 50
      []).receiptHeader = some (encodeReceiptHeader receipt0) ∧
    decodePaymentResponse (processRequest (middlewareChain cfg0) facAllOk kWeather url0
      (some header0) 50 []).receiptHeader = some receipt0 :=
  claim_C8_receipt_roundtrip (middlewareChain cfg0) facAllOk kWeather url0 (some header0)
    50 [] receipt0 (by decide) (by decide)

/-! ## RouteRegistry registration -/

theorem registerRoute_disjoint (reg : List RegEntry) (m p : String) (t : RouteTemplate)
    (burl : String) (reg' : List RegEntry)
    (h : registerRoute reg m p t burl = Except.ok reg') (hd : DisjointReg reg) :
    DisjointReg reg' := by
  unfold registerRoute at h
  split at h
  · simp at h
  · rename_i hany
    injection h with h
    subst h
    simp at hany
    intro e1 he1 e2 he2 hm hp
    rcases List.mem_cons.mp he1 with rfl | he1 <;> rcases List.mem_cons.mp he2 with rfl | he2
    · rfl
    · exact (hany e2 he2 hm.symm hp.symm).symm
    · exact hany e1 he1 hm hp
    · exact hd e1 he1 e2 he2 hm hp

theorem buildRegistry_disjoint : ∀ l acc : List RegEntry, DisjointReg acc →
    ∀ reg, buildRegistry l acc = Except.ok reg → DisjointReg reg
  | [], acc, hd, reg, h => by
    unfold buildRegistry at h
    injection h with h
    subst h
    exact hd
  | e :: rest, acc, hd, reg, h => by
    unfold buildRegistry at h
    cases hreg : registerRoute acc e.method e.path e.template e.bindingUrl with
    | error msg =>
      rw [hreg] at h
      simp at h
    | ok acc' =>
      rw [hreg] at h
      exact buildRegistry_disjoint rest acc'
        (registerRoute_disjoint acc e.method e.path e.template e.bindingUrl acc' hreg hd)
        reg h

/-- C5: registration-time route disjointness.  `registerRoute` fails with a
    ConfigurationError whenever the (method, path) pair is already registered
    by a different facilitator binding, and every registry that finishes
    building through it has pairwise-disjoint binding route sets: two entries
    matching the same (method, path) always carry the same binding, so no
    request can match two bindings. -/
theorem claim_C5_registration_disjointness :
    (∀ (reg : List RegEntry) (m p : String) (t : RouteTemplate) (burl : String),
      (∃ e ∈ reg, e.method = m ∧ e.path = p ∧ e.bindingUrl ≠ burl) →
      ∃ msg, registerRoute reg m p t burl = Except.error msg) ∧
    (∀ l reg, buildRegistry l [] = Except.ok reg → DisjointReg reg) := by
  constructor
  · rintro reg m p t burl ⟨e, he, h1, h2, h3⟩
    have hany : reg.any (fun e => decide (e.method = m) && decide (e.path = p) &&
        decide (e.bindingUrl ≠ burl)) = true :=
      List.any_eq_true.mpr ⟨e, he, by simp [h1, h2, h3]⟩
    exact ⟨_, by unfold registerRoute; rw [if_pos hany]⟩
  · intro l reg h
    exact buildRegistry_disjoint l [] (fun e1 he1 => absurd he1 (List.not_mem_nil e1)) reg h

/-- Registering the weather route twice under different facilitators fails;
    the registrations of src/index.ts build a disjoint registry. -/
theorem claim_C5_witness :
    (∃ msg, registerRoute [⟨"GET", "/api/weather", wt0, "u1"⟩] "GET" "/api/weather" wt0
      "u2" = Except.error msg) ∧
    ∃ reg, buildRegistry (sourceRegistrations cfg0) [] = Except.ok reg ∧
      DisjointReg reg := by
  constructor
  · exact claim_C5_registration_disjointness.1 [⟨"GET", "/api/weather", wt0, "u1"⟩]
      "GET" "/api/weather" wt0 "u2" (by decide)
  · exact ⟨_, rfl, claim_C5_registration_disjointness.2 (sourceRegistrations cfg0) _ rfl⟩

/-! ## Startup validation -/

/-- C7 counterexample: with both payee addresses set but no facilitator URL in
    the environment, startup succeeds (each URL silently falls back to its
    built-in default) instead of failing with a ConfigurationError. -/
theorem claim_C7_counterexample :
    envNoURLs.payaiFacilitatorURL = none ∧ envNoURLs.dexterFacilitatorURL = none ∧
    envNoURLs.heuristFacilitatorURL = none ∧ envNoURLs.daydreamsFacilitatorURL = none ∧
    startup envNoURLs = Except.ok ⟨"https://facilitator.payai.network",
      "https://dexter.cash/facilitator", "https://facilitator.heurist.xyz",
      "https://facilitator.daydreams.systems", "0xM", "S1"⟩ :=
  ⟨rfl, rfl, rfl, rfl, rfl⟩

/-- C7 (amended): startup succeeds exactly when both payee addresses are
    present; facilitator URLs are optional and default rather than being
    required. -/
theorem claim_C7_failfast_addresses (e : Env) :
    (∃ c, startup e = Except.ok c) ↔ (e.evmAddress.isSome ∧ e.solanaAddress.isSome) := by
  obtain ⟨u1, u2, u3, u4, ea, sa⟩ := e
  cases ea <;> cases sa <;> simp [startup]

/-! ## Error-handling middleware -/

/-- C9 counterexample: the 500 handler copies the fault's own message into the
    response body (`message: err.message`), so the body is not limited to a
    generic message and does depend on the fault detail. -/
theorem claim_C9_counterexample :
    (errorHandler "secret detail").1.message = "secret detail" ∧
    (errorHandler "secret detail").1.message ≠ "Internal server error" ∧
    (errorHandler "secret detail").1 ≠ (errorHandler "other fault").1 := by
  refine ⟨rfl, ?_, ?_⟩ <;> decide

/-- C9 (amended): every unexpected fault yields status 500 with
    success = false, the generic `error` field, no receipt header attached —
    but the body's `message` field carries the fault's own message, which is
    also written to the operator log. -/
theorem claim_C9_internal_error (m : String) :
    (errorHandler m).1.status = 500 ∧ (errorHandler m).1.success = false ∧
    (errorHandler m).1.error = "Internal server error" ∧
    (errorHandler m).1.paymentResponseHeader = none ∧
    (errorHandler m).1.message = m ∧
    (errorHandler m).2 = "Error: " ++ m :=
  ⟨rfl, rfl, rfl, rfl, rfl, rfl⟩

/-! ## Client-side decoder totality -/

/-- C10: the client-side receipt decoder is total: it returns `none` for a
    missing header, `none` whenever base64-decoding plus JSON-parsing of the
    header fails, and the parsed receipt otherwise — never an exception. -/
theorem claim_C10_decoder_total (hb : List Nat) :
    decodePaymentResponse none = none ∧
    ((b64Decode hb).bind parseReceipt = none → decodePaymentResponse (some hb) = none) ∧
    (∀ r, (b64Decode hb).bind parseReceipt = some r →
      decodePaymentResponse (some hb) = some r) := by
  refine ⟨rfl, ?_, ?_⟩
  · intro h
    unfold decodePaymentResponse
    dsimp only
    rcases hd : b64Decode hb with _ | bytes
    · rfl
    · rw [hd] at h
      simp at h
      dsimp only
      exact h
  · intro r h
    unfold decodePaymentResponse
    dsimp only
    rcases hd : b64Decode hb with _ | bytes
    · rw [hd] at h
      simp at h
    · rw [hd] at h
      simp at h
      dsimp only
      exact h

/-- The decoder on a missing header, a garbage header, and a well-formed
    receipt header. -/
theorem claim_C10_witness :
    decodePaymentResponse none = none ∧
    decodePaymentResponse (some [0]) = none ∧
    decodePaymentResponse (some (encodeReceiptHeader receipt0)) = some receipt0 :=
  ⟨(claim_C10_decoder_total [0]).1,
   (claim_C10_decoder_total [0]).2.1 (by decide),
   (claim_C10_decoder_total (encodeReceiptHeader receipt0)).2.2 receipt0 (by decide)⟩

end X402
